import Mathlib

/-!
Shallow embedding of the billing-related parts of the hospital-management
server (`src/server.js`, MySQL schema `src/hospital.mysql.sql`).

Conventions used throughout:

* JavaScript numbers are modelled by `JsNum`: a finite value is a rational,
  and `nan`, `posInf`, `negInf` model the three non-finite doubles.
* A numeric request field (JSON body field or query-string parameter fed to
  `Number(x || d)`) is modelled as `Option JsNum`: `none` stands for a raw
  value that is JavaScript-falsy (absent, `null`, `0`, the empty string,
  `false`), in which case `x || d` takes the default `d`; `some v` stands
  for a truthy raw value whose `Number(...)` coercion is `v` (an
  unparsable string such as "abc" coerces to `JsNum.nan`).
* A string request field fed to `isNonEmptyString` is modelled as
  `Option String`: `none` stands for an absent or non-string value.
* MySQL `DECIMAL(10,2)` money columns are modelled as an integer number of
  cents (`Int`), and their range limit (at most 99999999.99, i.e.
  `decMaxCents` cents) is enforced where the code writes them.  MySQL's
  default sql_mode since 5.7 includes `STRICT_TRANS_TABLES`, so an
  out-of-range store is an error that aborts the statement: an out-of-range
  `unit_price` fails the INSERT (caught, 500, nothing stored), and an
  out-of-range recomputed total fails the UPDATE (caught, 500) while the
  item INSERT that preceded it persists — there is no transaction around
  the two statements.  MySQL rounds a fractional value half away from zero
  when storing it into an integer or decimal column; this is `mysqlRound`
  below.
* Each HTTP handler becomes a pure function from the current store and the
  request to the next store and an `Except ApiError` response.
-/

/-- A JavaScript number: a finite rational, or one of the non-finite doubles. -/
inductive JsNum where
  | num (q : ℚ)
  | nan
  | posInf
  | negInf
deriving DecidableEq, Repr

/-- JavaScript falsiness of a number (`!x` is true exactly for `0` and `NaN`). -/
def JsNum.falsy : JsNum → Bool
  | .num q => q == 0
  | .nan => true
  | _ => false

/-- `Number.isFinite`. -/
def JsNum.isFinite : JsNum → Bool
  | .num _ => true
  | _ => false

/-- The test `x < 0` on a JavaScript number (`NaN < 0` is false). -/
def JsNum.ltZero : JsNum → Bool
  | .num q => q < 0
  | .negInf => true
  | _ => false

/-- `Math.min` on two JavaScript numbers (NaN-propagating). -/
def JsNum.jsMin : JsNum → JsNum → JsNum
  | .nan, _ => .nan
  | _, .nan => .nan
  | .negInf, _ => .negInf
  | _, .negInf => .negInf
  | .posInf, b => b
  | a, .posInf => a
  | .num a, .num b => .num (min a b)

/-- `Math.max` on two JavaScript numbers (NaN-propagating). -/
def JsNum.jsMax : JsNum → JsNum → JsNum
  | .nan, _ => .nan
  | _, .nan => .nan
  | .posInf, _ => .posInf
  | _, .posInf => .posInf
  | .negInf, b => b
  | a, .negInf => a
  | .num a, .num b => .num (max a b)

/-- `Number(x || d)` for a numeric request field: `none` models a falsy raw
value (so the default `d` is taken), `some v` a truthy raw value coercing
to `v`. -/
def numberOr (v : Option JsNum) (d : ℚ) : JsNum :=
  match v with
  | none => .num d
  | some x => x

/-- MySQL coercion of an exact value into an integer column: round half away
from zero. -/
def mysqlRound (q : ℚ) : Int :=
  if 0 ≤ q then Rat.floor (q + 1 / 2) else -(Rat.floor (-q + 1 / 2))

/-- MySQL storage of a finite value into a `DECIMAL(10,2)` column, as a
number of cents. -/
def toCents (q : ℚ) : Int :=
  mysqlRound (q * 100)

/-- MySQL `ROUND(x, 2)`: round to 2 decimal places, half away from zero. -/
def round2 (q : ℚ) : ℚ :=
  (mysqlRound (q * 100) : ℚ) / 100

/-- MySQL coercion of a JavaScript number bound into an `INT` column:
finite values are rounded; binding NaN or an infinity fails the statement. -/
def JsNum.toMysqlInt : JsNum → Option Int
  | .num q => some (mysqlRound q)
  | _ => none

/-- The SQL comparison `intColumn = v` where `v` is a bound JavaScript
number (`NaN` and the infinities compare equal to no integer). -/
def JsNum.eqInt (v : JsNum) (n : Int) : Bool :=
  match v with
  | .num q => q == (n : ℚ)
  | _ => false

/-- JavaScript `trim()`: strip leading and trailing whitespace. -/
def jsTrim (s : String) : String :=
  ⟨((s.data.dropWhile Char.isWhitespace).reverse.dropWhile Char.isWhitespace).reverse⟩

/-- Emptiness test on a string. -/
def strIsEmpty (s : String) : Bool :=
  s.data.isEmpty

/-- JavaScript `slice(0, n)` on a string. -/
def strTake (s : String) (n : Nat) : String :=
  ⟨s.data.take n⟩

/-- JavaScript `slice(k)` on a string (drop the first `k` characters). -/
def strDrop (s : String) (n : Nat) : String :=
  ⟨s.data.drop n⟩

/-- JavaScript `toUpperCase()` (ASCII model). -/
def strUpper (s : String) : String :=
  ⟨s.data.map Char.toUpper⟩

/-- JavaScript `toLowerCase()` (ASCII model). -/
def strLower (s : String) : String :=
  ⟨s.data.map Char.toLower⟩

/-- `isNonEmptyString` from `server.js`: a string whose trim is non-empty.
`none` models an absent or non-string value. -/
def isNonEmptyString (v : Option String) : Bool :=
  match v with
  | none => false
  | some s => !(strIsEmpty (jsTrim s))

/-- `pickEnum` from `server.js` (with a string fallback, as used by the
billing routes): lower-case the value and keep it only if it is allowed. -/
def pickEnum (value : Option String) (allowed : List String) (fallback : String) : String :=
  let v := strLower (match value with | none => "" | some s => s)
  if allowed.contains v then v else fallback

/-- `generateBillNo` from `server.js`: the current year and the last 6
digits of `Date.now()` (all of them when the decimal form is shorter). -/
def generateBillNo (year : Nat) (nowMs : Nat) : String :=
  let s := toString nowMs
  "BILL-" ++ toString year ++ "-" ++ strDrop s (s.length - 6)

/-- A row of the `bills` table (the columns the billing endpoints touch);
`total_cents` is `total_amount` in cents.  `total_amount` is a
`DECIMAL(10,2)` column; the write operations below only ever store values
with `decInRange`, mirroring the strict-mode range check. -/
structure Bill where
  id : Int
  patient_id : Int
  bill_no : String
  bill_date : String
  currency : String
  total_cents : Int
  status : String
deriving DecidableEq, Repr

/-- A row of the `billing_items` table; `price_cents` is `unit_price` in
cents.  `unit_price` is a `DECIMAL(10,2)` column; the INSERT below only
stores values with `decInRange`, mirroring the strict-mode range check. -/
structure BillingItem where
  id : Int
  bill_id : Int
  description : String
  qty : Int
  price_cents : Int
deriving DecidableEq, Repr

/-- The part of the database state the billing endpoints read and write.
`patients` holds the ids of existing patient rows; `nextBillId` and
`nextItemId` are the AUTO_INCREMENT counters. -/
structure Store where
  patients : List Int
  bills : List Bill
  items : List BillingItem
  nextBillId : Int
  nextItemId : Int
deriving DecidableEq, Repr

/-- An error response: HTTP status and the `error` field of the JSON body. -/
structure ApiError where
  status : Nat
  error : String
deriving DecidableEq, Repr

/-- The uniform 500 response produced by the catch-all handlers. -/
def dbError : ApiError := ⟨500, "Database error"⟩

instance {ε α : Type} [DecidableEq ε] [DecidableEq α] : DecidableEq (Except ε α)
  | .error e, .error f =>
    if h : e = f then .isTrue (by rw [h]) else .isFalse (by intro hh; cases hh; exact h rfl)
  | .error _, .ok _ => .isFalse (by intro hh; cases hh)
  | .ok _, .error _ => .isFalse (by intro hh; cases hh)
  | .ok a, .ok b =>
    if h : a = b then .isTrue (by rw [h]) else .isFalse (by intro hh; cases hh; exact h rfl)

/-- The 201 body of `POST /api/billing`. -/
structure BillCreated where
  id : Int
  bill_no : String
deriving DecidableEq, Repr

/-- The 201 body of `POST /api/billing/items`. -/
structure ItemCreated where
  id : Int
deriving DecidableEq, Repr

/-- Request body of `POST /api/billing` (see the field conventions in the
module docstring). -/
structure CreateBillReq where
  patient_id : Option JsNum
  currency : Option String
  status : Option String
  bill_no : Option String
  bill_date : Option String
deriving DecidableEq, Repr

/-- The currency normalization on line 399 of `server.js`:
`body.currency.trim().slice(0, 3).toUpperCase()` when the field is a
non-empty string, else "DZD". -/
def normCurrency (c : Option String) : String :=
  match c with
  | some s => if !(strIsEmpty (jsTrim s)) then strUpper (strTake (jsTrim s) 3) else "DZD"
  | none => "DZD"

/-- The ids of the bills currently in the store. -/
def Store.billIds (st : Store) : List Int :=
  st.bills.map Bill.id

/-- `POST /api/billing` (lines 393-412 of `server.js`).  `year`, `nowMs` and
`today` stand for the readings of `new Date().getFullYear()`, `Date.now()`
and `CURDATE()` during the request.  The insert enforces the foreign key to
`patients` and the `uk_bills_bill_no` unique key; a constraint violation is
caught and mapped to the uniform 500. -/
def createBill (st : Store) (year nowMs : Nat) (today : String) (req : CreateBillReq) :
    Store × Except ApiError BillCreated :=
  let patientId := numberOr req.patient_id 0
  if patientId.falsy then
    (st, .error ⟨400, "patient_id is required"⟩)
  else
    let currency := normCurrency req.currency
    let status := pickEnum req.status ["unpaid", "paid", "partially_paid", "void"] "unpaid"
    let billNo := match req.bill_no with
      | some s => if !(strIsEmpty (jsTrim s)) then jsTrim s else generateBillNo year nowMs
      | none => generateBillNo year nowMs
    let billDate := match req.bill_date with
      | some s => if !(strIsEmpty (jsTrim s)) then jsTrim s else today
      | none => today
    match patientId.toMysqlInt with
    | none => (st, .error dbError)
    | some pid =>
      if st.patients.contains pid then
        if st.bills.any (fun b => b.bill_no == billNo) then
          (st, .error dbError)
        else
          let b : Bill :=
            { id := st.nextBillId, patient_id := pid, bill_no := billNo,
              bill_date := billDate, currency := currency, total_cents := 0,
              status := status }
          ({ st with bills := st.bills ++ [b], nextBillId := st.nextBillId + 1 },
           .ok ⟨st.nextBillId, billNo⟩)
      else
        (st, .error dbError)

/-- Request body of `POST /api/billing/items`. -/
structure AddItemReq where
  bill_id : Option JsNum
  description : Option String
  qty : Option JsNum
  unit_price : Option JsNum
deriving DecidableEq, Repr

/-- The recompute subquery `SELECT COALESCE(SUM(i.qty * i.unit_price), 0)
FROM billing_items i WHERE i.bill_id = b.id`, in cents. -/
def billItemsSumCents (items : List BillingItem) (billId : Int) : Int :=
  ((items.filter (fun i => i.bill_id == billId)).map (fun i => i.qty * i.price_cents)).sum

/-- The quantity clamp on line 444 of `server.js`:
`Math.max(1, Math.min(100000, Number(body.qty || 1)))`. -/
def clampQty (qty : Option JsNum) : JsNum :=
  JsNum.jsMax (.num 1) (JsNum.jsMin (.num 100000) (numberOr qty 1))

/-- The largest value, in cents, storable in a `DECIMAL(10,2)` column:
99999999.99 (10 digits, 2 of them after the decimal point). -/
def decMaxCents : Int := 9999999999

/-- Whether a value in cents fits a `DECIMAL(10,2)` column.  Under MySQL's
default strict sql_mode, storing a value outside this range is an error
(a non-strict server would instead saturate at the bound; either behavior
breaks the statements refuted below). -/
def decInRange (c : Int) : Bool :=
  decide (-decMaxCents ≤ c) && decide (c ≤ decMaxCents)

/-- Whether the recompute UPDATE would assign an out-of-range total to a
bill matched by `WHERE b.id = ?`.  In strict mode the whole UPDATE then
fails (no bill is modified) and the handler's catch returns the uniform
500 — while the item INSERT that already ran persists. -/
def updateOverflows (st : Store) (billId : JsNum) (items2 : List BillingItem) : Bool :=
  st.bills.any (fun b => billId.eqInt b.id && !(decInRange (billItemsSumCents items2 b.id)))

/-- The write stage of `POST /api/billing/items` (lines 448-464 of
`server.js`): the INSERT into `billing_items` — which checks the foreign
key to `bills` against `bid`, the value as coerced into the `INT` column,
and rejects a `unit_price` outside the `DECIMAL(10,2)` range — followed by
the recompute UPDATE of every bill matching `WHERE b.id = ?`.  When a
recomputed total does not fit `DECIMAL(10,2)`, the strict-mode UPDATE
fails and is caught (500) but the inserted item remains: the two
statements are not wrapped in a transaction. -/
def insertItemAndRecompute (st : Store) (billId : JsNum) (bid qv : Int) (dsc : String)
    (pc : Int) : Store × Except ApiError ItemCreated :=
  if st.billIds.contains bid then
    if decInRange pc then
      let item : BillingItem :=
        { id := st.nextItemId, bill_id := bid, description := dsc, qty := qv,
          price_cents := pc }
      let items2 := st.items ++ [item]
      if updateOverflows st billId items2 then
        ({ st with items := items2, nextItemId := st.nextItemId + 1 }, .error dbError)
      else
        let bills2 := st.bills.map (fun b =>
          if billId.eqInt b.id then
            { b with total_cents := billItemsSumCents items2 b.id }
          else b)
        ({ st with items := items2, bills := bills2, nextItemId := st.nextItemId + 1 },
         .ok ⟨st.nextItemId⟩)
    else
      (st, .error dbError)
  else
    (st, .error dbError)

/-- `POST /api/billing/items` (lines 435-470 of `server.js`): validate the
request, then run the insert-and-recompute write stage. -/
def addItem (st : Store) (req : AddItemReq) : Store × Except ApiError ItemCreated :=
  let billId := numberOr req.bill_id 0
  if billId.falsy then
    (st, .error ⟨400, "bill_id is required"⟩)
  else
    let description := match req.description with
      | some s => if !(strIsEmpty (jsTrim s)) then jsTrim s else ""
      | none => ""
    if strIsEmpty description then
      (st, .error ⟨400, "description is required"⟩)
    else
      let qty := clampQty req.qty
      let unitPrice := numberOr req.unit_price 0
      if !unitPrice.isFinite || unitPrice.ltZero then
        (st, .error ⟨400, "unit_price must be >= 0"⟩)
      else
        match billId.toMysqlInt, qty.toMysqlInt, unitPrice with
        | some bid, some q, .num p =>
          insertItemAndRecompute st billId bid q description (toCents p)
        | _, _, _ => (st, .error dbError)

/-- A row of the `GET /api/billing/items` response; `unit_price` and
`line_total` are the decimal values returned by the SELECT. -/
structure ItemRow where
  id : Int
  description : String
  qty : Int
  unit_price : ℚ
  line_total : ℚ
deriving DecidableEq, Repr

/-- The row shaping of the `GET /api/billing/items` SELECT:
`id, description, qty, unit_price, ROUND(qty * unit_price, 2) AS line_total`. -/
def itemRowOf (i : BillingItem) : ItemRow :=
  { id := i.id, description := i.description, qty := i.qty,
    unit_price := (i.price_cents : ℚ) / 100,
    line_total := round2 ((i.qty : ℚ) * ((i.price_cents : ℚ) / 100)) }

/-- `GET /api/billing/items?billId=` (lines 414-433 of `server.js`):
reject a falsy billId, else return the matching rows ordered by id
ascending, each with `line_total = ROUND(qty * unit_price, 2)`. -/
def getBillingItems (st : Store) (billIdParam : Option JsNum) : Except ApiError (List ItemRow) :=
  let billId := numberOr billIdParam 0
  if billId.falsy then
    .error ⟨400, "billId is required"⟩
  else
    .ok (((st.items.filter (fun i => billId.eqInt i.bill_id)).mergeSort
            (fun a b => a.id ≤ b.id)).map itemRowOf)

/-- The result of interpolating a JavaScript number into `LIMIT ${lq}`:
MySQL accepts only a non-negative integer literal, so any other value makes
the statement fail (500); otherwise at most that many rows come back. -/
def sqlLimit {α : Type} (rows : List α) (lq : JsNum) : Except ApiError (List α) :=
  match lq with
  | .num q => if q.den = 1 ∧ 0 ≤ q.num then .ok (rows.take q.num.toNat) else .error dbError
  | _ => .error dbError

/-- `GET /api/patients?limit=` (line 114 of `server.js`): the pre-LIMIT
result set `rows` is cut by `Math.min(Number(req.query.limit || 10), 100)`. -/
def listPatients {α : Type} (rows : List α) (limit : Option JsNum) :
    Except ApiError (List α) :=
  sqlLimit rows (JsNum.jsMin (numberOr limit 10) (.num 100))

/-- `GET /api/doctors?limit=` (line 240 of `server.js`): same clamp with
default 20. -/
def listDoctors {α : Type} (rows : List α) (limit : Option JsNum) :
    Except ApiError (List α) :=
  sqlLimit rows (JsNum.jsMin (numberOr limit 20) (.num 100))

/-- An appointment row as far as the day filter is concerned. -/
structure Appointment where
  appt_date : String
deriving DecidableEq, Repr

/-- The effective day value on line 195 of `server.js`:
`String(req.query.day || "today").toLowerCase()`; `none` models an absent
or empty parameter. -/
def dayQuery (day : Option String) : String :=
  strLower (match day with
    | none => "today"
    | some s => if strIsEmpty s then "today" else s)

/-- The WHERE clause chosen on line 196 of `server.js`: every day value
other than "all" keeps the `appt_date = CURDATE()` filter. -/
def appointmentsRows (appts : List Appointment) (today : String) (day : Option String) :
    List Appointment :=
  if dayQuery day = "all" then appts
  else appts.filter (fun a => a.appt_date == today)

/-- A request against the two billing write endpoints, for reasoning about
request sequences. -/
inductive Op where
  | createBill (year nowMs : Nat) (today : String) (req : CreateBillReq)
  | addItem (req : AddItemReq)
deriving DecidableEq, Repr

/-- The store after one request (the response is discarded). -/
def applyOp (st : Store) : Op → Store
  | .createBill year nowMs today req => (createBill st year nowMs today req).1
  | .addItem req => (addItem st req).1

/-- The store after a sequence of requests. -/
def applyOps (st : Store) (ops : List Op) : Store :=
  ops.foldl applyOp st

/-- Structural well-formedness of a store, as guaranteed by the schema:
AUTO_INCREMENT counters are ahead of (positive) existing ids, items satisfy
the foreign key to `bills`, and items appear in ascending id order. -/
def Wf (st : Store) : Prop :=
  0 < st.nextBillId ∧
  (∀ b ∈ st.bills, 0 < b.id ∧ b.id < st.nextBillId) ∧
  (∀ i ∈ st.items, i.id < st.nextItemId) ∧
  (∀ i ∈ st.items, i.bill_id ∈ st.billIds) ∧
  st.items.Pairwise (fun a b => a.id < b.id)

instance (st : Store) : Decidable (Wf st) := by
  unfold Wf; infer_instance

/-- The billing consistency invariant: every bill's stored total is the sum
over its items of `qty * unit_price` (in cents). -/
def Totals (st : Store) : Prop :=
  ∀ b ∈ st.bills, b.total_cents = billItemsSumCents st.items b.id

instance (st : Store) : Decidable (Totals st) := by
  unfold Totals; infer_instance

/-- The effective `bill_id` of an item-insert request is an integer-valued
number (it is not a finite non-integral value such as 1.5). -/
def AddItemReq.integralBillId (req : AddItemReq) : Prop :=
  ∀ q : ℚ, numberOr req.bill_id 0 = .num q → q.den = 1

instance (req : AddItemReq) : Decidable req.integralBillId := by
  unfold AddItemReq.integralBillId
  match numberOr req.bill_id 0 with
  | .num q =>
    refine if h : q.den = 1 then .isTrue ?_ else .isFalse ?_
    · intro r hr; cases hr; exact h
    · intro hall; exact h (hall q rfl)
  | .nan => exact .isTrue (by intro r hr; cases hr)
  | .posInf => exact .isTrue (by intro r hr; cases hr)
  | .negInf => exact .isTrue (by intro r hr; cases hr)

/-- An op whose item-insert `bill_id` (if it is one) is integer-valued. -/
def Op.integralBillId : Op → Prop
  | .createBill _ _ _ _ => True
  | .addItem req => req.integralBillId

instance (op : Op) : Decidable op.integralBillId := by
  cases op <;> unfold Op.integralBillId <;> infer_instance

/-- A request whose failure leaves no partial write: when it returns the
uniform 500 database error, the store it produced is the store it started
from.  Every failing `createBill` and every failing `addItem` satisfies
this except the strict-mode recompute overflow, which keeps the inserted
item while the total UPDATE is rolled back. -/
def atomicAt (st : Store) : Op → Prop
  | .createBill _ _ _ _ => True
  | .addItem req => (addItem st req).2 = Except.error dbError → (addItem st req).1 = st

instance (st : Store) (op : Op) : Decidable (atomicAt st op) := by
  cases op with
  | createBill year nowMs today req => exact .isTrue trivial
  | addItem req =>
    unfold atomicAt
    infer_instance

/-- A request trace along which every item addition carries an
integer-valued bill_id and no request fails leaving a partial write. -/
def CleanOps : Store → List Op → Prop
  | _, [] => True
  | st, op :: ops => op.integralBillId ∧ atomicAt st op ∧ CleanOps (applyOp st op) ops

instance cleanOpsDecidable : (st : Store) → (ops : List Op) → Decidable (CleanOps st ops)
  | _, [] => .isTrue trivial
  | st, op :: ops =>
    haveI : Decidable (CleanOps (applyOp st op) ops) := cleanOpsDecidable _ _
    inferInstanceAs (Decidable (_ ∧ _ ∧ _))

/-- Spec-side statement of the quantity rule, following the claim's words:
the request quantity, coerced to an integer and clamped into
`[1, 100000]`. -/
def qtySpec (q : ℚ) : Int :=
  max 1 (min 100000 (mysqlRound q))

/-- Spec-side statement of the currency rule, following the claim's words:
the trimmed request currency truncated to its first 3 characters and
upper-cased; "DZD" when the field is absent or (after trimming) empty. -/
def currencySpec (c : Option String) : String :=
  match c with
  | none => "DZD"
  | some s => if strIsEmpty (jsTrim s) then "DZD" else strUpper (strTake (jsTrim s) 3)

/-! ### Facts about the rounding model -/

theorem floor_half_q : ⌊(1 / 2 : ℚ)⌋ = 0 := by
  rw [Int.floor_eq_zero_iff]
  constructor <;> norm_num

theorem ratFloor_eq_intFloor (q : ℚ) : Rat.floor q = ⌊q⌋ := by
  rw [Rat.floor_def']
  exact Rat.floor_def.symm

theorem mysqlRound_intCast (n : Int) : mysqlRound (n : ℚ) = n := by
  unfold mysqlRound
  simp only [ratFloor_eq_intFloor]
  rcases le_or_lt 0 ((n : ℚ)) with h | h
  · rw [if_pos h, Int.floor_int_add, floor_half_q, add_zero]
  · rw [if_neg (not_le.mpr h)]
    have hcast : -(n : ℚ) = ((-n : Int) : ℚ) := by push_cast; ring
    rw [hcast, Int.floor_int_add, floor_half_q, add_zero, neg_neg]

theorem mysqlRound_mono {q r : ℚ} (h : q ≤ r) : mysqlRound q ≤ mysqlRound r := by
  unfold mysqlRound
  simp only [ratFloor_eq_intFloor]
  rcases le_or_lt 0 q with hq | hq <;> rcases le_or_lt 0 r with hr | hr
  · rw [if_pos hq, if_pos hr]
    exact Int.floor_mono (by linarith)
  · linarith
  · rw [if_neg (not_le.mpr hq), if_pos hr]
    have h1 : 0 ≤ ⌊-q + 1 / 2⌋ := Int.le_floor.mpr (by push_cast; linarith)
    have h2 : 0 ≤ ⌊r + 1 / 2⌋ := Int.le_floor.mpr (by push_cast; linarith)
    omega
  · rw [if_neg (not_le.mpr hq), if_neg (not_le.mpr hr)]
    have := Int.floor_mono (show -r + 1 / 2 ≤ -q + 1 / 2 by linarith)
    omega

theorem mysqlRound_one : mysqlRound (1 : ℚ) = 1 := by
  simpa using mysqlRound_intCast 1

theorem mysqlRound_hundredK : mysqlRound (100000 : ℚ) = 100000 := by
  simpa using mysqlRound_intCast 100000

/-- Coercing to an integer commutes with the `[1, 100000]` clamp. -/
theorem mysqlRound_clamp (q : ℚ) :
    mysqlRound (max 1 (min 100000 q)) = max 1 (min 100000 (mysqlRound q)) := by
  rcases le_total q 1 with hle | hge
  · rw [min_eq_right (by linarith : q ≤ (100000 : ℚ)), max_eq_left hle, mysqlRound_one]
    have h1 : mysqlRound q ≤ 1 := by
      have := mysqlRound_mono hle
      rwa [mysqlRound_one] at this
    rw [min_eq_right (by omega : mysqlRound q ≤ (100000 : Int)), max_eq_left h1]
  · rcases le_total q 100000 with hle2 | hge2
    · rw [min_eq_right hle2, max_eq_right hge]
      have a1 : 1 ≤ mysqlRound q := by
        have := mysqlRound_mono hge
        rwa [mysqlRound_one] at this
      have a2 : mysqlRound q ≤ 100000 := by
        have := mysqlRound_mono hle2
        rwa [mysqlRound_hundredK] at this
      rw [min_eq_right a2, max_eq_right a1]
    · rw [min_eq_left hge2, max_eq_right (by norm_num : (1 : ℚ) ≤ 100000), mysqlRound_hundredK]
      have a2 : 100000 ≤ mysqlRound q := by
        have := mysqlRound_mono hge2
        rwa [mysqlRound_hundredK] at this
      rw [min_eq_left a2, max_eq_right (by norm_num : (1 : Int) ≤ 100000)]

/-- `ROUND(x, 2)` is the identity on an exact number of cents. -/
theorem round2_div_hundred (n : Int) : round2 ((n : ℚ) / 100) = (n : ℚ) / 100 := by
  unfold round2
  rw [div_mul_cancel₀ _ (by norm_num : (100 : ℚ) ≠ 0), mysqlRound_intCast]

/-! ### Facts about sums of billing items -/

theorem billItemsSumCents_append (l1 l2 : List BillingItem) (n : Int) :
    billItemsSumCents (l1 ++ l2) n = billItemsSumCents l1 n + billItemsSumCents l2 n := by
  unfold billItemsSumCents
  rw [List.filter_append, List.map_append, List.sum_append]

theorem billItemsSumCents_eq_zero {l : List BillingItem} {n : Int}
    (h : ∀ i ∈ l, i.bill_id ≠ n) : billItemsSumCents l n = 0 := by
  unfold billItemsSumCents
  have : l.filter (fun i => i.bill_id == n) = [] := by
    rw [List.filter_eq_nil_iff]
    intro i hi
    simpa using h i hi
  rw [this]
  rfl

theorem toMysqlInt_eq_some {v : JsNum} {n : Int} (h : v.toMysqlInt = some n) :
    ∃ q : ℚ, v = .num q ∧ n = mysqlRound q := by
  cases v with
  | num q =>
    refine ⟨q, rfl, ?_⟩
    simpa [JsNum.toMysqlInt] using h.symm
  | nan => simp [JsNum.toMysqlInt] at h
  | posInf => simp [JsNum.toMysqlInt] at h
  | negInf => simp [JsNum.toMysqlInt] at h

/-- A rational with denominator 1 is its own numerator. -/
theorem den_one_eq_num {q : ℚ} (h : q.den = 1) : q = (q.num : ℚ) := by
  exact ((Rat.den_eq_one_iff q).mp h).symm

theorem createBill_fst_cases (st : Store) (year nowMs : Nat) (today : String)
    (req : CreateBillReq) :
    (createBill st year nowMs today req).1 = st ∨
    ∃ b : Bill, b.id = st.nextBillId ∧ b.total_cents = 0 ∧
      (createBill st year nowMs today req).1 =
        { st with bills := st.bills ++ [b], nextBillId := st.nextBillId + 1 } := by
  simp only [createBill]
  split
  · left; rfl
  · split
    · left; rfl
    · split
      · split
        · left; rfl
        · right; exact ⟨_, rfl, rfl, rfl⟩
      · left; rfl

theorem insertItemAndRecompute_cases (st : Store) (billId : JsNum) (bid qv : Int)
    (dsc : String) (pc : Int) :
    (insertItemAndRecompute st billId bid qv dsc pc).1 = st ∨
    (bid ∈ st.billIds ∧
      (((insertItemAndRecompute st billId bid qv dsc pc).2 = .error dbError ∧
          (insertItemAndRecompute st billId bid qv dsc pc).1 =
            { st with items := st.items ++ [⟨st.nextItemId, bid, dsc, qv, pc⟩], nextItemId := st.nextItemId + 1 }) ∨
        (insertItemAndRecompute st billId bid qv dsc pc).1 =
          { st with
              items := st.items ++ [⟨st.nextItemId, bid, dsc, qv, pc⟩],
              bills := st.bills.map (fun b =>
                if billId.eqInt b.id then
                  { b with total_cents := billItemsSumCents (st.items ++ [⟨st.nextItemId, bid, dsc, qv, pc⟩]) b.id }
                else b),
              nextItemId := st.nextItemId + 1 })) := by
  unfold insertItemAndRecompute
  split
  · next hc =>
    split
    · dsimp only
      split
      · right
        exact ⟨by simpa using hc, Or.inl ⟨rfl, rfl⟩⟩
      · right
        exact ⟨by simpa using hc, Or.inr rfl⟩
    · left; rfl
  · left; rfl

theorem insertItemAndRecompute_ok (st : Store) (billId : JsNum) (bid qv : Int)
    (dsc : String) (pc : Int) (st2 : Store) (r : ItemCreated)
    (h : insertItemAndRecompute st billId bid qv dsc pc = (st2, .ok r)) :
    st2.items = st.items ++ [⟨st.nextItemId, bid, dsc, qv, pc⟩] := by
  unfold insertItemAndRecompute at h
  split at h
  · split at h
    · dsimp only at h
      split at h
      · simp at h
      · injection h with h1 h2
        rw [← h1]
    · simp at h
  · simp at h

theorem insertItemAndRecompute_snd (st : Store) (billId : JsNum) (bid qv : Int)
    (dsc : String) (pc : Int) (hmem : st.billIds.contains bid = true) :
    (insertItemAndRecompute st billId bid qv dsc pc).2 =
      (if decInRange pc = true ∧
          updateOverflows st billId (st.items ++ [⟨st.nextItemId, bid, dsc, qv, pc⟩]) = false
        then .ok ⟨st.nextItemId⟩ else .error dbError) := by
  unfold insertItemAndRecompute
  rw [if_pos hmem]
  by_cases hr : decInRange pc = true
  · rw [if_pos hr]
    dsimp only
    by_cases hov : updateOverflows st billId
        (st.items ++ [⟨st.nextItemId, bid, dsc, qv, pc⟩]) = true
    · rw [if_pos hov, if_neg (fun hco => by rw [hco.2] at hov; exact Bool.false_ne_true hov)]
    · have hov2 : updateOverflows st billId
          (st.items ++ [⟨st.nextItemId, bid, dsc, qv, pc⟩]) = false := by
        simpa using hov
      rw [if_neg hov, if_pos ⟨hr, hov2⟩]
  · rw [if_neg hr, if_neg (fun hco => hr hco.1)]

theorem billItemsSumCents_single (n bid2 : Int) (d : String) (qv pc x : Int) :
    billItemsSumCents [⟨n, bid2, d, qv, pc⟩] x =
      (if bid2 == x then qv * pc else 0) := by
  simp only [billItemsSumCents, List.filter_singleton]
  by_cases hb : (bid2 == x) = true
  · simp [hb]
  · simp [hb]

theorem updateOverflows_desc (st : Store) (billId : JsNum) (n bid2 : Int)
    (d1 d2 : String) (qv pc : Int) :
    updateOverflows st billId (st.items ++ [⟨n, bid2, d1, qv, pc⟩]) =
      updateOverflows st billId (st.items ++ [⟨n, bid2, d2, qv, pc⟩]) := by
  unfold updateOverflows
  simp only [billItemsSumCents_append, billItemsSumCents_single]

theorem addItem_fst_cases (st : Store) (req : AddItemReq) :
    (addItem st req).1 = st ∨
    ∃ (qq : ℚ) (dsc : String) (qv pc : Int),
      numberOr req.bill_id 0 = .num qq ∧
      mysqlRound qq ∈ st.billIds ∧
      (((addItem st req).2 = .error dbError ∧
          (addItem st req).1 =
            { st with items := st.items ++ [⟨st.nextItemId, mysqlRound qq, dsc, qv, pc⟩], nextItemId := st.nextItemId + 1 }) ∨
        (addItem st req).1 =
          { st with
              items := st.items ++ [⟨st.nextItemId, mysqlRound qq, dsc, qv, pc⟩],
              bills := st.bills.map (fun b =>
                if (JsNum.num qq).eqInt b.id then
                  { b with total_cents := billItemsSumCents (st.items ++ [⟨st.nextItemId, mysqlRound qq, dsc, qv, pc⟩]) b.id }
                else b),
              nextItemId := st.nextItemId + 1 }) := by
  simp only [addItem]
  split
  · left; rfl
  · split
    · left; rfl
    · split
      · left; rfl
      · split
        · next bid q p heq1 heq2 heq3 =>
          obtain ⟨qq, hqq, hbid⟩ := toMysqlInt_eq_some heq1
          subst hbid
          rw [hqq]
          rcases insertItemAndRecompute_cases st (JsNum.num qq) (mysqlRound qq) q
            (match req.description with
              | some s => if !(strIsEmpty (jsTrim s)) then jsTrim s else ""
              | none => "") (toCents p) with h1 | ⟨hmem, hrest⟩
          · left; exact h1
          · right
            exact ⟨qq, _, q, toCents p, rfl, hmem, hrest⟩
        · left; rfl

/-- The bill-update function of the recompute UPDATE, abbreviated. -/
def recomputeAt (qq : ℚ) (items2 : List BillingItem) (b : Bill) : Bill :=
  if (JsNum.num qq).eqInt b.id then
    { b with total_cents := billItemsSumCents items2 b.id }
  else b

theorem recomputeAt_id (qq : ℚ) (items2 : List BillingItem) (b : Bill) :
    (recomputeAt qq items2 b).id = b.id := by
  unfold recomputeAt
  by_cases hc : (JsNum.num qq).eqInt b.id = true
  · rw [if_pos hc]
  · rw [if_neg hc]

theorem addItem_fst_cases2 (st : Store) (req : AddItemReq) :
    (addItem st req).1 = st ∨
    ∃ (qq : ℚ) (dsc : String) (qv pc : Int),
      numberOr req.bill_id 0 = .num qq ∧
      mysqlRound qq ∈ st.billIds ∧
      (((addItem st req).2 = .error dbError ∧
          (addItem st req).1 =
            { st with items := st.items ++ [⟨st.nextItemId, mysqlRound qq, dsc, qv, pc⟩], nextItemId := st.nextItemId + 1 }) ∨
        (addItem st req).1 =
          { st with
              items := st.items ++ [⟨st.nextItemId, mysqlRound qq, dsc, qv, pc⟩],
              bills := st.bills.map
                (recomputeAt qq (st.items ++ [⟨st.nextItemId, mysqlRound qq, dsc, qv, pc⟩])),
              nextItemId := st.nextItemId + 1 }) := by
  rcases addItem_fst_cases st req with h1 | ⟨qq, dsc, qv, pc, hq, hmem, h1⟩
  · exact Or.inl h1
  · exact Or.inr ⟨qq, dsc, qv, pc, hq, hmem, h1⟩

theorem billIds_map_recomputeAt (st : Store) (qq : ℚ) (items2 : List BillingItem) :
    (st.bills.map (recomputeAt qq items2)).map Bill.id = st.billIds := by
  unfold Store.billIds
  rw [List.map_map]
  refine List.map_congr_left ?_
  intro b _
  exact recomputeAt_id qq items2 b

theorem wf_createBill (st : Store) (year nowMs : Nat) (today : String)
    (req : CreateBillReq) (h : Wf st) : Wf (createBill st year nowMs today req).1 := by
  rcases createBill_fst_cases st year nowMs today req with h1 | ⟨b, hid, -, h1⟩
  · rw [h1]; exact h
  · rw [h1]
    unfold Wf
    dsimp only
    obtain ⟨h0, hb, hi, hfk, hs⟩ := h
    refine ⟨by omega, ?_, hi, ?_, hs⟩
    · intro b2 hb2
      rcases List.mem_append.mp hb2 with h2 | h2
      · have := hb b2 h2
        omega
      · rw [List.mem_singleton.mp h2, hid]
        omega
    · intro i hi2
      have := hfk i hi2
      unfold Store.billIds at this ⊢
      simp only [List.map_append, List.mem_append]
      exact Or.inl this

theorem totals_createBill (st : Store) (year nowMs : Nat) (today : String)
    (req : CreateBillReq) (h : Wf st) (ht : Totals st) :
    Totals (createBill st year nowMs today req).1 := by
  rcases createBill_fst_cases st year nowMs today req with h1 | ⟨b, hid, htc, h1⟩
  · rw [h1]; exact ht
  · rw [h1]
    intro b2 hb2
    rcases List.mem_append.mp hb2 with h2 | h2
    · exact ht b2 h2
    · rw [List.mem_singleton.mp h2, htc, hid]
      refine (billItemsSumCents_eq_zero ?_).symm
      intro i hi
      obtain ⟨b3, hb3, hb3id⟩ := List.mem_map.mp (h.2.2.2.1 i hi)
      have := h.2.1 b3 hb3
      omega

theorem mysqlRound_den_one {qq : ℚ} (h : qq.den = 1) : mysqlRound qq = qq.num := by
  conv_lhs => rw [den_one_eq_num h]
  exact mysqlRound_intCast qq.num

theorem wf_addItem (st : Store) (req : AddItemReq) (h : Wf st) :
    Wf (addItem st req).1 := by
  rcases addItem_fst_cases2 st req with h1 | ⟨qq, dsc, qv, pc, -, hmem, ⟨-, h1⟩ | h1⟩
  · rw [h1]; exact h
  · rw [h1]
    unfold Wf
    dsimp only
    obtain ⟨h0, hb, hi, hfk, hs⟩ := h
    refine ⟨h0, hb, ?_, ?_, ?_⟩
    · intro i hi2
      rcases List.mem_append.mp hi2 with h2 | h2
      · have := hi i h2
        omega
      · rw [List.mem_singleton.mp h2]
        dsimp only
        omega
    · intro i hi2
      unfold Store.billIds
      dsimp only
      rcases List.mem_append.mp hi2 with h2 | h2
      · exact hfk i h2
      · rw [List.mem_singleton.mp h2]
        exact hmem
    · rw [List.pairwise_append]
      refine ⟨hs, List.pairwise_singleton _ _, ?_⟩
      intro a ha b2 hb2
      rw [List.mem_singleton.mp hb2]
      exact hi a ha
  · rw [h1]
    unfold Wf
    dsimp only
    obtain ⟨h0, hb, hi, hfk, hs⟩ := h
    refine ⟨h0, ?_, ?_, ?_, ?_⟩
    · intro b2 hb2
      obtain ⟨b3, hb3, hb3e⟩ := List.mem_map.mp hb2
      have hidq : b2.id = b3.id := by rw [← hb3e]; exact recomputeAt_id qq _ b3
      have := hb b3 hb3
      omega
    · intro i hi2
      rcases List.mem_append.mp hi2 with h2 | h2
      · have := hi i h2
        omega
      · rw [List.mem_singleton.mp h2]
        dsimp only
        omega
    · intro i hi2
      unfold Store.billIds
      dsimp only
      rw [show (st.bills.map (recomputeAt qq (st.items ++ [⟨st.nextItemId, mysqlRound qq, dsc, qv, pc⟩]))).map Bill.id = st.billIds from billIds_map_recomputeAt st qq _]
      rcases List.mem_append.mp hi2 with h2 | h2
      · exact hfk i h2
      · rw [List.mem_singleton.mp h2]
        exact hmem
    · rw [List.pairwise_append]
      refine ⟨hs, List.pairwise_singleton _ _, ?_⟩
      intro a ha b2 hb2
      rw [List.mem_singleton.mp hb2]
      exact hi a ha

theorem totals_addItem (st : Store) (req : AddItemReq) (ht : Totals st)
    (hint : req.integralBillId) (hat : atomicAt st (.addItem req)) :
    Totals (addItem st req).1 := by
  rcases addItem_fst_cases2 st req with h1 | ⟨qq, dsc, qv, pc, hq, hmem, ⟨herr, -⟩ | h1⟩
  · rw [h1]; exact ht
  · rw [hat herr]; exact ht
  · rw [h1]
    unfold Totals
    dsimp only
    intro b2 hb2
    obtain ⟨b3, hb3, hb3e⟩ := List.mem_map.mp hb2
    have hden : qq.den = 1 := hint qq hq
    by_cases hc : (JsNum.num qq).eqInt b3.id = true
    · rw [← hb3e]
      unfold recomputeAt
      rw [if_pos hc]
    · rw [← hb3e]
      unfold recomputeAt
      rw [if_neg hc]
      rw [billItemsSumCents_append]
      have hne : (⟨st.nextItemId, mysqlRound qq, dsc, qv, pc⟩ : BillingItem).bill_id ≠ b3.id := by
        dsimp only
        intro heq2
        apply hc
        unfold JsNum.eqInt
        rw [beq_iff_eq, ← heq2, mysqlRound_den_one hden]
        exact den_one_eq_num hden
      have hz : billItemsSumCents [⟨st.nextItemId, mysqlRound qq, dsc, qv, pc⟩] b3.id = 0 := by
        refine billItemsSumCents_eq_zero ?_
        intro i hi2
        rw [List.mem_singleton.mp hi2]
        exact hne
      rw [hz, add_zero]
      exact ht b3 hb3

theorem wf_applyOp (st : Store) (op : Op) (h : Wf st) : Wf (applyOp st op) := by
  cases op with
  | createBill year nowMs today req => exact wf_createBill st year nowMs today req h
  | addItem req => exact wf_addItem st req h

theorem totals_applyOp (st : Store) (op : Op) (h : Wf st) (ht : Totals st)
    (hint : op.integralBillId) (hat : atomicAt st op) : Totals (applyOp st op) := by
  cases op with
  | createBill year nowMs today req => exact totals_createBill st year nowMs today req h ht
  | addItem req => exact totals_addItem st req ht hint hat

theorem wf_totals_applyOps : ∀ (ops : List Op) (st : Store), Wf st → Totals st →
    CleanOps st ops →
    Wf (applyOps st ops) ∧ Totals (applyOps st ops)
  | [], st, hw, ht, _ => ⟨hw, ht⟩
  | op :: ops, st, hw, ht, hclean => by
    obtain ⟨hint, hat, hrest⟩ := hclean
    have h1 := wf_applyOp st op hw
    have h2 := totals_applyOp st op hw ht hint hat
    have h3 := wf_totals_applyOps ops (applyOp st op) h1 h2 hrest
    simpa [applyOps, List.foldl_cons] using h3

/-- The per-item rational sum matches the integer cent sum. -/
theorem sum_line_totals (l : List BillingItem) :
    ((l.map (fun i => (i.qty : ℚ) * ((i.price_cents : ℚ) / 100))).sum) =
      (((l.map (fun i => i.qty * i.price_cents)).sum : Int) : ℚ) / 100 := by
  induction l with
  | nil => simp
  | cons i l ih =>
    simp only [List.map_cons, List.sum_cons, ih]
    push_cast
    ring

theorem addItem_ok_items (st : Store) (req : AddItemReq) (st2 : Store) (r : ItemCreated)
    (h : addItem st req = (st2, .ok r)) :
    ∃ (item : BillingItem) (qv : Int),
      st2.items = st.items ++ [item] ∧
      (clampQty req.qty).toMysqlInt = some qv ∧
      item.qty = qv := by
  simp only [addItem] at h
  split at h
  · simp at h
  · split at h
    · simp at h
    · split at h
      · simp at h
      · split at h
        · next bid q p heq1 heq2 heq3 =>
          have h2 := insertItemAndRecompute_ok _ _ _ _ _ _ _ _ h
          exact ⟨_, q, h2, heq2, rfl⟩
        · simp at h

theorem mysqlRound_zero : mysqlRound (0 : ℚ) = 0 := by
  simpa using mysqlRound_intCast 0

theorem clampQty_toMysqlInt (v : Option JsNum) :
    (clampQty v).toMysqlInt =
      (match numberOr v 1 with
        | .num q => some (mysqlRound (max 1 (min 100000 q)))
        | .nan => none
        | .posInf => some 100000
        | .negInf => some 1) := by
  unfold clampQty
  cases hv : numberOr v 1 with
  | num q =>
    simp only [JsNum.jsMin, JsNum.jsMax, JsNum.toMysqlInt]
  | nan => simp only [JsNum.jsMin, JsNum.jsMax, JsNum.toMysqlInt]
  | posInf =>
    simp only [JsNum.jsMin, JsNum.jsMax, JsNum.toMysqlInt]
    rw [max_eq_right (by norm_num : (1 : ℚ) ≤ 100000), mysqlRound_hundredK]
  | negInf =>
    simp only [JsNum.jsMin, JsNum.jsMax, JsNum.toMysqlInt, mysqlRound_one]

theorem qtySpec_of_nonpos {q : ℚ} (h : q ≤ 0) : qtySpec q = 1 := by
  unfold qtySpec
  have h1 : mysqlRound q ≤ 0 := by
    have := mysqlRound_mono h
    rwa [mysqlRound_zero] at this
  have h2 : min 100000 (mysqlRound q) ≤ 0 := le_trans (min_le_right _ _) h1
  omega

/-- C2: for every `POST /api/billing/items` request that stores an item, the
stored quantity is the request's qty coerced to an integer and clamped into
`[1, 100000]` (`qtySpec`); a request with quantity 0 or negative stores
quantity 1; and for every input the stored quantity is an integer between 1
and 100000 inclusive. -/
theorem addItem_qty_clamped (st : Store) (req : AddItemReq) (st2 : Store) (r : ItemCreated)
    (h : addItem st req = (st2, .ok r)) :
    ∃ item : BillingItem, st2.items = st.items ++ [item] ∧
      1 ≤ item.qty ∧ item.qty ≤ 100000 ∧
      (∀ q : ℚ, numberOr req.qty 1 = .num q → item.qty = qtySpec q) ∧
      (∀ q : ℚ, numberOr req.qty 1 = .num q → q ≤ 0 → item.qty = 1) ∧
      (req.qty = none → item.qty = 1) := by
  obtain ⟨item, qv, hitems, hclamp, hqty⟩ := addItem_ok_items st req st2 r h
  rw [clampQty_toMysqlInt] at hclamp
  refine ⟨item, hitems, ?_, ?_, ?_, ?_, ?_⟩
  · rw [hqty]
    cases hv : numberOr req.qty 1 with
    | num q =>
      rw [hv] at hclamp
      simp only [Option.some.injEq] at hclamp
      rw [← hclamp, mysqlRound_clamp]
      exact le_max_left _ _
    | nan => rw [hv] at hclamp; simp at hclamp
    | posInf => rw [hv] at hclamp; simp only [Option.some.injEq] at hclamp; omega
    | negInf => rw [hv] at hclamp; simp only [Option.some.injEq] at hclamp; omega
  · rw [hqty]
    cases hv : numberOr req.qty 1 with
    | num q =>
      rw [hv] at hclamp
      simp only [Option.some.injEq] at hclamp
      rw [← hclamp, mysqlRound_clamp]
      exact max_le (by norm_num) (min_le_left _ _)
    | nan => rw [hv] at hclamp; simp at hclamp
    | posInf => rw [hv] at hclamp; simp only [Option.some.injEq] at hclamp; omega
    | negInf => rw [hv] at hclamp; simp only [Option.some.injEq] at hclamp; omega
  · intro q hq
    rw [hq] at hclamp
    simp only [Option.some.injEq] at hclamp
    rw [hqty, ← hclamp, mysqlRound_clamp]
    rfl
  · intro q hq hq0
    rw [hq] at hclamp
    simp only [Option.some.injEq] at hclamp
    rw [hqty, ← hclamp, mysqlRound_clamp]
    exact qtySpec_of_nonpos hq0
  · intro hnone
    have : numberOr req.qty 1 = .num 1 := by rw [hnone]; rfl
    rw [this] at hclamp
    simp only [Option.some.injEq] at hclamp
    rw [hqty, ← hclamp]
    rw [show mysqlRound (max 1 (min 100000 (1 : ℚ))) = mysqlRound 1 by norm_num]
    exact mysqlRound_one

/-- A concrete starting store for witnesses: one patient, one empty bill. -/
def wStore1 : Store := ⟨[1], [⟨1, 1, "A", "2026-01-01", "DZD", 0, "unpaid"⟩], [], 2, 1⟩

def wReqNeg : AddItemReq := ⟨some (.num 1), some "x", some (.num (-5)), some (.num 10)⟩

/-- The store after `wReqNeg` is applied to `wStore1`. -/
def wStore2 : Store :=
  ⟨[1], [⟨1, 1, "A", "2026-01-01", "DZD", 1000, "unpaid"⟩], [⟨1, 1, "x", 1, 1000⟩], 2, 2⟩

theorem addItem_qty_clamped_witness :
    ∃ item : BillingItem, wStore2.items = wStore1.items ++ [item] ∧
      1 ≤ item.qty ∧ item.qty ≤ 100000 ∧
      (∀ q : ℚ, numberOr wReqNeg.qty 1 = .num q → item.qty = qtySpec q) ∧
      (∀ q : ℚ, numberOr wReqNeg.qty 1 = .num q → q ≤ 0 → item.qty = 1) ∧
      (wReqNeg.qty = none → item.qty = 1) :=
  addItem_qty_clamped wStore1 wReqNeg wStore2 ⟨1⟩ (by decide!)

/-- C8: `POST /api/billing` with a missing or zero patient id is rejected
with HTTP 400 before any write: the response is the 400 error and the store
is returned unchanged, so no bill row is inserted. -/
theorem createBill_missing_patient (st : Store) (year nowMs : Nat) (today : String)
    (req : CreateBillReq)
    (h : req.patient_id = none ∨ req.patient_id = some (.num 0)) :
    createBill st year nowMs today req = (st, .error ⟨400, "patient_id is required"⟩) := by
  rcases h with h | h <;> simp [createBill, numberOr, h, JsNum.falsy]

theorem createBill_missing_patient_witness :
    createBill wStore1 2026 1760227200123 "2026-10-12" ⟨none, none, none, none, none⟩ =
      (wStore1, .error ⟨400, "patient_id is required"⟩) :=
  createBill_missing_patient wStore1 2026 1760227200123 "2026-10-12"
    ⟨none, none, none, none, none⟩ (Or.inl rfl)

theorem createBill_ok_bills (st : Store) (year nowMs : Nat) (today : String)
    (req : CreateBillReq) (st2 : Store) (r : BillCreated)
    (h : createBill st year nowMs today req = (st2, .ok r)) :
    ∃ b : Bill, st2.bills = st.bills ++ [b] ∧ b.currency = normCurrency req.currency := by
  simp only [createBill] at h
  split at h
  · simp at h
  · split at h
    · simp at h
    · next pid heq =>
      split at h
      · split at h
        · simp at h
        · injection h with h1 h2
          refine ⟨⟨st.nextBillId, pid,
            (match req.bill_no with
              | some s => if !(strIsEmpty (jsTrim s)) then jsTrim s else generateBillNo year nowMs
              | none => generateBillNo year nowMs),
            (match req.bill_date with
              | some s => if !(strIsEmpty (jsTrim s)) then jsTrim s else today
              | none => today),
            normCurrency req.currency, 0,
            pickEnum req.status ["unpaid", "paid", "partially_paid", "void"] "unpaid"⟩, ?_, rfl⟩
          rw [← h1]
      · simp at h

theorem normCurrency_eq_spec (c : Option String) : normCurrency c = currencySpec c := by
  cases c with
  | none => rfl
  | some s =>
    unfold normCurrency currencySpec
    by_cases hh : strIsEmpty (jsTrim s) = true <;> simp [hh]

/-- C6: for every `POST /api/billing` request that creates a bill, the stored
currency is the trimmed request currency truncated to its first 3 characters
and upper-cased, defaulting to "DZD" when the field is absent or empty
(`currencySpec`); in particular "dzd" is stored as "DZD". -/
theorem createBill_currency (st : Store) (year nowMs : Nat) (today : String)
    (req : CreateBillReq) (st2 : Store) (r : BillCreated)
    (h : createBill st year nowMs today req = (st2, .ok r)) :
    (∃ b : Bill, st2.bills = st.bills ++ [b] ∧ b.currency = currencySpec req.currency) ∧
      currencySpec (some "dzd") = "DZD" ∧ currencySpec none = "DZD" := by
  obtain ⟨b, hb, hcur⟩ := createBill_ok_bills st year nowMs today req st2 r h
  exact ⟨⟨b, hb, by rw [hcur, normCurrency_eq_spec]⟩, by decide, rfl⟩

def tickStore : Store := ⟨[1], [], [], 1, 1⟩

def tickReq : CreateBillReq := ⟨some (.num 1), none, none, none, none⟩

/-- C3 (code bug): `generateBillNo` depends only on the year and the current
`Date.now()` reading, so two bills created without an explicit bill number
in the same process tick receive the SAME generated bill number, not
distinct ones: the first request stores `BILL-2026-200123` and the second
request in the same tick generates the same number, violates the
`uk_bills_bill_no` unique key, and fails with the 500 database error. -/
theorem sameTick_bill_numbers_collide :
    generateBillNo 2026 1760227200123 = "BILL-2026-200123" ∧
    (createBill tickStore 2026 1760227200123 "2026-10-12" tickReq).2 =
      .ok ⟨1, "BILL-2026-200123"⟩ ∧
    createBill (createBill tickStore 2026 1760227200123 "2026-10-12" tickReq).1
        2026 1760227200123 "2026-10-12" tickReq =
      ((createBill tickStore 2026 1760227200123 "2026-10-12" tickReq).1, .error dbError) := by
  refine ⟨by decide, by decide!, by decide!⟩

def wCurrencyReq : CreateBillReq := ⟨some (.num 1), some "dzd", none, some "B", none⟩

/-- `wStore1` after `wCurrencyReq` creates bill "B". -/
def wStore3 : Store :=
  ⟨[1], [⟨1, 1, "A", "2026-01-01", "DZD", 0, "unpaid"⟩,
         ⟨2, 1, "B", "2026-10-12", "DZD", 0, "unpaid"⟩], [], 3, 1⟩

theorem createBill_currency_witness :
    (∃ b : Bill, wStore3.bills = wStore1.bills ++ [b] ∧
        b.currency = currencySpec (some "dzd")) ∧
      currencySpec (some "dzd") = "DZD" ∧ currencySpec none = "DZD" :=
  createBill_currency wStore1 2026 1 "2026-10-12" wCurrencyReq wStore3 ⟨2, "B"⟩ (by decide!)

theorem sqlLimit_ok_length {α : Type} {rows out : List α} {q : ℚ}
    (h : sqlLimit rows (.num q) = .ok out) (hq : q ≤ 100) : out.length ≤ 100 := by
  simp only [sqlLimit] at h
  split at h
  · next hcond =>
    injection h with h1
    rw [← h1]
    have hn : q.num ≤ 100 := by
      have hqq : (q.num : ℚ) ≤ 100 := by rw [← den_one_eq_num hcond.1]; exact hq
      exact_mod_cast hqq
    calc (rows.take q.num.toNat).length ≤ q.num.toNat := by
          rw [List.length_take]; exact min_le_left _ _
      _ ≤ 100 := by omega
  · exact absurd h (by simp)

theorem listLimited_length {α : Type} (rows : List α) (limit : Option JsNum) (d : ℚ)
    (out : List α)
    (h : sqlLimit rows (JsNum.jsMin (numberOr limit d) (.num 100)) = .ok out) :
    out.length ≤ 100 := by
  cases hv : numberOr limit d with
  | num a =>
    rw [hv] at h
    rw [show JsNum.jsMin (.num a) (.num 100) = .num (min a 100) from rfl] at h
    exact sqlLimit_ok_length h (min_le_right a 100)
  | nan => rw [hv] at h; simp [JsNum.jsMin, sqlLimit] at h
  | posInf =>
    rw [hv] at h
    rw [show JsNum.jsMin .posInf (.num 100) = .num 100 from rfl] at h
    exact sqlLimit_ok_length h le_rfl
  | negInf => rw [hv] at h; simp [JsNum.jsMin, sqlLimit] at h

theorem listPatients_default {α : Type} (rows : List α) :
    listPatients rows none = .ok (rows.take 10) := by
  unfold listPatients numberOr
  rw [show JsNum.jsMin (.num 10) (.num 100) = .num 10 from by decide!]
  simp only [sqlLimit]
  rw [if_pos ⟨by decide!, by decide!⟩]
  rw [show ((10 : ℚ).num.toNat) = 10 from by decide!]

theorem listDoctors_default {α : Type} (rows : List α) :
    listDoctors rows none = .ok (rows.take 20) := by
  unfold listDoctors numberOr
  rw [show JsNum.jsMin (.num 20) (.num 100) = .num 20 from by decide!]
  simp only [sqlLimit]
  rw [if_pos ⟨by decide!, by decide!⟩]
  rw [show ((20 : ℚ).num.toNat) = 20 from by decide!]

/-- C7: for every `GET /api/patients?limit=N` and `GET /api/doctors?limit=N`
request, a successful response never carries more than 100 rows, whatever
the limit input; an absent limit defaults to 10 rows for patients and 20
for doctors. -/
theorem list_limit_clamped {α : Type} (rows : List α) (limit : Option JsNum) :
    (∀ out : List α, listPatients rows limit = .ok out → out.length ≤ 100) ∧
    (∀ out : List α, listDoctors rows limit = .ok out → out.length ≤ 100) ∧
    listPatients rows none = .ok (rows.take 10) ∧
    listDoctors rows none = .ok (rows.take 20) :=
  ⟨fun out h => listLimited_length rows limit 10 out h,
   fun out h => listLimited_length rows limit 20 out h,
   listPatients_default rows,
   listDoctors_default rows⟩

theorem list_limit_clamped_witness :
    ((List.range 200).take 100).length ≤ 100 ∧
      listPatients (List.range 200) none = .ok ((List.range 200).take 10) :=
  ⟨(list_limit_clamped (List.range 200) (some (.num 250))).1 ((List.range 200).take 100)
      (by decide!),
   (list_limit_clamped (List.range 200) (some (.num 250))).2.2.1⟩

/-- C9: for `GET /api/appointments`, every day value other than "all"
(case-insensitively) — an absent parameter, "today", or any unrecognized
string — keeps the current-date filter; only day=all removes it. -/
theorem appointments_day_filter (appts : List Appointment) (today : String)
    (day : Option String) :
    (day = none →
      appointmentsRows appts today day = appts.filter (fun a => a.appt_date == today)) ∧
    (∀ s : String, day = some s → strLower s ≠ "all" →
      appointmentsRows appts today day = appts.filter (fun a => a.appt_date == today)) ∧
    (∀ s : String, day = some s → strLower s = "all" →
      appointmentsRows appts today day = appts) := by
  refine ⟨?_, ?_, ?_⟩
  · intro h
    subst h
    unfold appointmentsRows
    rw [if_neg (by decide! : ¬ dayQuery none = "all")]
  · intro s hs hne
    subst hs
    unfold appointmentsRows dayQuery
    dsimp only
    by_cases he : strIsEmpty s = true
    · rw [if_pos he]
      rw [if_neg (by decide! : ¬ strLower "today" = "all")]
    · rw [if_neg he, if_neg hne]
  · intro s hs hall
    subst hs
    unfold appointmentsRows dayQuery
    dsimp only
    have he : ¬ strIsEmpty s = true := by
      intro hse
      have hdata : s.data = [] := by
        have := hse
        unfold strIsEmpty at this
        exact List.isEmpty_iff.mp this
      have hempty : strLower s = "" := by
        unfold strLower
        rw [hdata]
        rfl
      rw [hempty] at hall
      exact absurd hall (by decide)
    rw [if_neg he, if_pos hall]

theorem appointments_day_filter_witness :
    appointmentsRows [⟨"2026-10-12"⟩, ⟨"2026-10-11"⟩] "2026-10-12" (some "ALL") =
      [⟨"2026-10-12"⟩, ⟨"2026-10-11"⟩] :=
  (appointments_day_filter [⟨"2026-10-12"⟩, ⟨"2026-10-11"⟩] "2026-10-12"
      (some "ALL")).2.2 "ALL" rfl (by decide)

/-- C5 counterexample: a billId query value that is present and nonzero but
fails numeric coercion (e.g. `billId=abc`, which coerces to NaN) also gets
the 400 "billId is required" response — so the 400 is NOT returned exactly
when billId is 0 or absent. -/
theorem getBillingItems_nan_400 :
    getBillingItems wStore1 (some JsNum.nan) = .error ⟨400, "billId is required"⟩ ∧
    ¬(some JsNum.nan = (none : Option JsNum) ∨ some JsNum.nan = some (JsNum.num 0)) := by
  refine ⟨by decide, by decide⟩

/-- C5 (amended): `GET /api/billing/items` returns 400 with
`billId is required` exactly when the coerced billId is JavaScript-falsy
(absent, empty, zero, or NaN); any other billId referencing no existing
bill yields 200 with an empty list, not an error. -/
theorem getBillingItems_behavior (st : Store) (q : Option JsNum) (hWf : Wf st) :
    (getBillingItems st q = .error ⟨400, "billId is required"⟩ ↔
      (numberOr q 0).falsy = true) ∧
    ((numberOr q 0).falsy = false →
      (∀ b ∈ st.bills, (numberOr q 0).eqInt b.id = false) →
      getBillingItems st q = .ok []) := by
  constructor
  · constructor
    · intro h
      by_cases hf : (numberOr q 0).falsy = true
      · exact hf
      · exfalso
        simp only [getBillingItems] at h
        rw [if_neg hf] at h
        exact absurd h (by simp)
    · intro hf
      simp only [getBillingItems]
      rw [if_pos hf]
  · intro hf hno
    simp only [getBillingItems]
    rw [if_neg (by simp [hf])]
    have hfilter : st.items.filter (fun i => (numberOr q 0).eqInt i.bill_id) = [] := by
      rw [List.filter_eq_nil_iff]
      intro i hi
      obtain ⟨h0, hb, hil, hfk, hs⟩ := hWf
      obtain ⟨b, hbmem, hbid⟩ := List.mem_map.mp (hfk i hi)
      rw [← hbid]
      simpa using hno b hbmem
    rw [hfilter, List.mergeSort_nil]
    rfl

theorem getBillingItems_behavior_witness :
    getBillingItems wStore1 (some (.num 5)) = .ok [] :=
  (getBillingItems_behavior wStore1 (some (.num 5)) (by decide)).2 (by decide!) (by decide!)

def fracOps : List Op :=
  [.createBill 2026 111 "2026-10-10" ⟨some (.num 1), none, none, some "A", none⟩,
   .createBill 2026 222 "2026-10-10" ⟨some (.num 1), none, none, some "B", none⟩,
   .addItem ⟨some (.num (3 / 2)), some "x", some (.num 2), some (.num 10)⟩]

def ovfOps : List Op :=
  [.createBill 2026 111 "2026-10-10" ⟨some (.num 1), none, none, some "A", none⟩,
   .addItem ⟨some (.num 1), some "x", some (.num 100000), some (.num 10000)⟩]

/-- C1 counterexample, two failing request sequences starting from an empty
billing store with patient 1.  First (`fracOps`): create bills 1 and 2, then
add an item whose bill_id is the finite non-integral number 1.5; the INT
column coerces 1.5 to bill 2, so the item row is stored against bill 2, but
the recompute UPDATE's `WHERE b.id = 1.5` matches no row; bill 2's
total_amount stays 0.00 while its item sum is 20.00.  Second (`ovfOps`):
create bill 1, then add an item with integer bill_id 1, qty 100000 and
unit_price 10000.00; the item row's INSERT succeeds, but the recomputed sum
1000000000.00 exceeds the DECIMAL(10,2) range of bills.total_amount, so
under the default strict sql_mode the UPDATE errors after the item is
already stored and bill 1's total stays 0.00 while its item sum is
1000000000.00.  Either way the claimed invariant fails after the
sequence. -/
theorem billing_total_invariant_counterexample :
    ¬ Totals (applyOps ⟨[1], [], [], 1, 1⟩ fracOps) ∧
    ¬ Totals (applyOps ⟨[1], [], [], 1, 1⟩ ovfOps) :=
  ⟨by decide!, by decide!⟩

/-- C1 (amended): after any sequence of bill creations and item additions in
which every item addition carries an integer-valued bill_id and none takes
the partial-write failure path in which the item row is inserted but the
recompute UPDATE is rejected (the DECIMAL(10,2) overflow of
bills.total_amount under the default strict sql_mode), every bill's
total_amount equals the sum over all of its billing items of
`quantity * unit_price`, rounded to 2 decimal places (it is 0 at creation
and is recomputed as a full re-sum over all items of the bill after each
item insert). -/
theorem billing_total_invariant (st : Store) (ops : List Op) (hw : Wf st) (ht : Totals st)
    (hclean : CleanOps st ops) :
    ∀ b ∈ (applyOps st ops).bills,
      ((b.total_cents : ℚ) / 100) =
        round2 ((((applyOps st ops).items.filter (fun i => i.bill_id == b.id)).map
          (fun i => (i.qty : ℚ) * ((i.price_cents : ℚ) / 100))).sum) := by
  intro b hb
  have ht2 := (wf_totals_applyOps ops st hw ht hclean).2 b hb
  rw [sum_line_totals, round2_div_hundred, ht2]
  rfl

def wInit : Store := ⟨[1], [], [], 1, 1⟩

def wOps : List Op :=
  [.createBill 2026 111 "2026-10-10" ⟨some (.num 1), none, none, some "A", none⟩,
   .addItem ⟨some (.num 1), some "x", some (.num 2), some (.num 10)⟩]

def wBill : Bill := ⟨1, 1, "A", "2026-10-10", "DZD", 2000, "unpaid"⟩

theorem billing_total_invariant_witness :
    ((wBill.total_cents : ℚ) / 100) =
      round2 ((((applyOps wInit wOps).items.filter
          (fun i => i.bill_id == wBill.id)).map
        (fun i => (i.qty : ℚ) * ((i.price_cents : ℚ) / 100))).sum) :=
  billing_total_invariant wInit wOps (by decide) (by decide) (by decide!) wBill (by decide!)

theorem filter_eqInt_intCast (items : List BillingItem) (n : Int) :
    items.filter (fun i => (JsNum.num (n : ℚ)).eqInt i.bill_id) =
      items.filter (fun i => i.bill_id == n) := by
  apply List.filter_congr
  intro i _
  unfold JsNum.eqInt
  apply Bool.eq_iff_iff.mpr
  constructor
  · intro hx
    have h1 : (n : ℚ) = (i.bill_id : ℚ) := eq_of_beq hx
    have h2 : n = i.bill_id := by exact_mod_cast h1
    exact beq_iff_eq.mpr h2.symm
  · intro hx
    have h1 : i.bill_id = n := eq_of_beq hx
    exact beq_iff_eq.mpr (by exact_mod_cast h1.symm)

/-- C10: for every existing bill id `n`, `GET /api/billing/items?billId=n`
returns exactly that bill's items in ascending (insertion) id order, and
every returned row's `line_total` equals `qty * unit_price` rounded to 2
decimal places — which, prices being stored at 2 decimals, is the exact
product. -/
theorem getBillingItems_sorted_lineTotal (st : Store) (n : Int) (hWf : Wf st)
    (hn : n ∈ st.billIds) :
    getBillingItems st (some (.num (n : ℚ))) =
      .ok ((st.items.filter (fun i => i.bill_id == n)).map itemRowOf) ∧
    List.Pairwise (fun a b : ItemRow => a.id ≤ b.id)
      ((st.items.filter (fun i => i.bill_id == n)).map itemRowOf) ∧
    ∀ r ∈ (st.items.filter (fun i => i.bill_id == n)).map itemRowOf,
      r.line_total = round2 ((r.qty : ℚ) * r.unit_price) ∧
      r.line_total = (r.qty : ℚ) * r.unit_price := by
  obtain ⟨h0, hb, hil, hfk, hs⟩ := hWf
  have hpos : 0 < n := by
    obtain ⟨b, hbmem, hbid⟩ := List.mem_map.mp hn
    have := hb b hbmem
    omega
  have hfz : (JsNum.num ((n : Int) : ℚ)).falsy = false := by
    unfold JsNum.falsy
    rw [beq_eq_false_iff_ne]
    intro hc
    have : n = 0 := by exact_mod_cast hc
    omega
  have hsort : List.Pairwise (fun a b : BillingItem => a.id < b.id)
      (st.items.filter (fun i => i.bill_id == n)) :=
    List.Pairwise.sublist (List.filter_sublist st.items) hs
  refine ⟨?_, ?_, ?_⟩
  · simp only [getBillingItems, numberOr]
    rw [if_neg (by rw [hfz]; exact Bool.false_ne_true)]
    rw [filter_eqInt_intCast]
    rw [List.mergeSort_of_sorted
      ((hsort.imp le_of_lt).imp (fun h => decide_eq_true h))]
  · exact List.Pairwise.map itemRowOf (fun a b h => h) (hsort.imp le_of_lt)
  · intro r hr
    obtain ⟨i, hi, hie⟩ := List.mem_map.mp hr
    rw [← hie]
    constructor
    · rfl
    · show round2 ((i.qty : ℚ) * ((i.price_cents : ℚ) / 100)) =
        (i.qty : ℚ) * ((i.price_cents : ℚ) / 100)
      have hcast : (i.qty : ℚ) * ((i.price_cents : ℚ) / 100) =
          (((i.qty * i.price_cents : Int) : ℚ)) / 100 := by
        push_cast
        ring
      rw [hcast, round2_div_hundred]

theorem getBillingItems_sorted_lineTotal_witness :
    getBillingItems wStore2 (some (.num ((1 : Int) : ℚ))) =
      .ok ((wStore2.items.filter (fun i => i.bill_id == (1 : Int))).map itemRowOf) :=
  (getBillingItems_sorted_lineTotal wStore2 1 (by decide) (by decide)).1

/-- C4 counterexample: on a store holding bill 1 with no items, a request
with valid bill_id 1, description "x", qty 1 and the finite non-negative
unit_price 1000000000 is not accepted: 1000000000.00 exceeds the
DECIMAL(10,2) range of billing_items.unit_price, so under the default strict
sql_mode the INSERT itself errors and the handler answers 500 with nothing
stored — refuting the claim that every finite unit price >= 0 is
accepted. -/
theorem addItem_price_validation_counterexample :
    addItem ⟨[1], [⟨1, 1, "A", "2026-01-01", "DZD", 0, "unpaid"⟩], [], 2, 1⟩
        ⟨some (.num 1), some "x", some (.num 1), some (.num 1000000000)⟩ =
      (⟨[1], [⟨1, 1, "A", "2026-01-01", "DZD", 0, "unpaid"⟩], [], 2, 1⟩, .error dbError) ∧
    (JsNum.num 1000000000).isFinite = true ∧
    (JsNum.num 1000000000).ltZero = false :=
  ⟨by decide!, by decide!, by decide!⟩

/-- C4 (amended): with a valid bill id, description and a coercible
quantity, `POST /api/billing/items` returns the 400 unit-price error exactly
when the coerced unit price is negative or non-finite; a finite unit price
that is not negative (including the missing-price default 0) is accepted
with 201 exactly when its cent value fits the DECIMAL(10,2) column range and
the recomputed bill total does not overflow that range — otherwise the
request fails with the 500 database error. -/
theorem addItem_price_validation (st : Store) (req : AddItemReq) (qb : ℚ) (qv : Int)
    (hqb : numberOr req.bill_id 0 = .num qb) (hqb0 : qb ≠ 0)
    (hmem : mysqlRound qb ∈ st.billIds)
    (hdesc : isNonEmptyString req.description = true)
    (hqty : (clampQty req.qty).toMysqlInt = some qv) :
    ((addItem st req).2 = .error ⟨400, "unit_price must be >= 0"⟩ ↔
      ((numberOr req.unit_price 0).isFinite = false ∨
        (numberOr req.unit_price 0).ltZero = true)) ∧
    (∀ p : ℚ, numberOr req.unit_price 0 = .num p → 0 ≤ p →
      ((addItem st req).2 = .ok ⟨st.nextItemId⟩ ↔
        (decInRange (toCents p) = true ∧
          updateOverflows st (JsNum.num qb)
            (st.items ++ [⟨st.nextItemId, mysqlRound qb, "", qv, toCents p⟩]) = false))) := by
  obtain ⟨s, hse, hne⟩ : ∃ s, req.description = some s ∧ strIsEmpty (jsTrim s) = false := by
    cases hd : req.description with
    | none => rw [hd] at hdesc; exact absurd hdesc (by simp [isNonEmptyString])
    | some s =>
      refine ⟨s, rfl, ?_⟩
      rw [hd] at hdesc
      simpa [isNonEmptyString] using hdesc
  have hfals : (JsNum.num qb).falsy = false := by
    unfold JsNum.falsy
    exact beq_eq_false_iff_ne.mpr hqb0
  have hdne : strIsEmpty (if (!strIsEmpty (jsTrim s)) = true then jsTrim s else "") = false := by
    rw [hne]
    exact hne
  have hnotdesc :
      ¬ (strIsEmpty (if (!strIsEmpty (jsTrim s)) = true then jsTrim s else "") = true) := by
    rw [hdne]
    exact Bool.false_ne_true
  have hkey : ∀ p : ℚ, numberOr req.unit_price 0 = .num p →
      (!(JsNum.num p).isFinite || (JsNum.num p).ltZero) = false →
      (addItem st req).2 =
        (if decInRange (toCents p) = true ∧
            updateOverflows st (JsNum.num qb)
              (st.items ++ [⟨st.nextItemId, mysqlRound qb, "", qv, toCents p⟩]) = false
          then .ok ⟨st.nextItemId⟩ else .error dbError) := by
    intro p hp hcnd
    have h1 : (addItem st req).2 =
        (insertItemAndRecompute st (JsNum.num qb) (mysqlRound qb) qv
          (jsTrim s) (toCents p)).2 := by
      simp only [addItem, hqb, hse, hfals]
      rw [if_neg (by simp), if_neg hnotdesc, hp,
        if_neg (by rw [hcnd]; exact Bool.false_ne_true), hqty]
      simp only [JsNum.toMysqlInt]
      rw [hne]
      rfl
    rw [h1,
      insertItemAndRecompute_snd st (JsNum.num qb) (mysqlRound qb) qv (jsTrim s)
        (toCents p) (by simpa using hmem),
      updateOverflows_desc st (JsNum.num qb) st.nextItemId (mysqlRound qb)
        (jsTrim s) "" qv (toCents p)]
  by_cases hcond : (!(numberOr req.unit_price 0).isFinite ||
      (numberOr req.unit_price 0).ltZero) = true
  · have herr : (addItem st req).2 = .error ⟨400, "unit_price must be >= 0"⟩ := by
      simp only [addItem, hqb, hse, hfals]
      rw [if_neg (by simp), if_neg hnotdesc, if_pos hcond]
    have hrhs : (numberOr req.unit_price 0).isFinite = false ∨
        (numberOr req.unit_price 0).ltZero = true := by
      rcases Bool.or_eq_true_iff.mp hcond with h | h
      · exact Or.inl (by simpa using h)
      · exact Or.inr h
    refine ⟨⟨fun _ => hrhs, fun _ => herr⟩, ?_⟩
    intro p hp hp0
    rw [hp] at hcond
    rcases Bool.or_eq_true_iff.mp hcond with h | h
    · exact absurd h (by simp [JsNum.isFinite])
    · have hneg : p < 0 := by simpa [JsNum.ltZero] using h
      linarith
  · have hcond2 : (!(numberOr req.unit_price 0).isFinite ||
        (numberOr req.unit_price 0).ltZero) = false := by
      simpa using hcond
    obtain ⟨h1, h2⟩ := Bool.or_eq_false_iff.mp hcond2
    have hfin : (numberOr req.unit_price 0).isFinite = true := by simpa using h1
    obtain ⟨p0, hp0⟩ : ∃ p0, numberOr req.unit_price 0 = .num p0 := by
      cases hu : numberOr req.unit_price 0 with
      | num p0 => exact ⟨p0, rfl⟩
      | nan => rw [hu] at hfin; exact absurd hfin (by simp [JsNum.isFinite])
      | posInf => rw [hu] at hfin; exact absurd hfin (by simp [JsNum.isFinite])
      | negInf => rw [hu] at hfin; exact absurd hfin (by simp [JsNum.isFinite])
    have hc0 : (!(JsNum.num p0).isFinite || (JsNum.num p0).ltZero) = false := by
      rw [← hp0]; exact hcond2
    have hnoterr : (addItem st req).2 ≠ .error ⟨400, "unit_price must be >= 0"⟩ := by
      rw [hkey p0 hp0 hc0]
      by_cases hd : decInRange (toCents p0) = true ∧
          updateOverflows st (JsNum.num qb)
            (st.items ++ [⟨st.nextItemId, mysqlRound qb, "", qv, toCents p0⟩]) = false
      · rw [if_pos hd]; simp
      · rw [if_neg hd]; simp [dbError]
    refine ⟨⟨fun hcontra => absurd hcontra hnoterr, fun hr => ?_⟩, ?_⟩
    · rcases hr with hr | hr
      · rw [hfin] at hr
        exact absurd hr (by decide)
      · rw [h2] at hr
        exact absurd hr (by decide)
    · intro p hp hp0
      have hc1 : (!(JsNum.num p).isFinite || (JsNum.num p).ltZero) = false := by
        rw [← hp]; exact hcond2
      rw [hkey p hp hc1]
      by_cases hd : decInRange (toCents p) = true ∧
          updateOverflows st (JsNum.num qb)
            (st.items ++ [⟨st.nextItemId, mysqlRound qb, "", qv, toCents p⟩]) = false
      · rw [if_pos hd]
        exact ⟨fun _ => hd, fun _ => rfl⟩
      · rw [if_neg hd]
        exact ⟨fun hco => absurd hco (by simp [dbError]), fun hco => absurd hco hd⟩

theorem addItem_price_validation_witness :
    (addItem wStore1 ⟨some (.num 1), some "x", some (.num 2), none⟩).2 = .ok ⟨1⟩ :=
  ((addItem_price_validation wStore1 ⟨some (.num 1), some "x", some (.num 2), none⟩ 1 2
      rfl (by norm_num) (by decide!) (by decide) (by decide!)).2 0 rfl
    (le_refl 0)).mpr ⟨by decide!, by decide!⟩
